import Mathlib

/-!
A shallow embedding of `src/utils/user.js` from the nodequiz repository
(user + authentication utilities), together with theorems settling the
frozen claims about it.

Modelling conventions:
* MongoDB collections are Lean lists; `findOne` is `List.find?` (first
  match), `count` is `List.countP`, an update with `multi: false` and
  `findOneAndUpdate` update the first matching document.
* Timestamps (`new Date()`, the `date` fields) are rationals measured in
  milliseconds, so that the expiry arithmetic `|now - date| / 36e5` is
  exact.
* Asynchronous callbacks are modelled by returning the outcome: either the
  callback invocation `(err, value)` or a thrown exception (`CbOutcome`).
* Outcomes of external calls that the function merely consumes (the LDAP
  bind, `crypt.hash` in `resetPassword`, a database error, a database
  count) are passed in as explicit arguments, so each function is a pure
  function of its inputs.
-/

namespace NodeQuiz

/-- A document of the `User` collection, with the fields `user.js` reads
or writes (`_id` is modelled as `id : Nat`). Schema defaults for fields
other than `username` live in `models/models.js`, which is not part of the
sources; they are irrelevant to the claims. -/
structure UserRec where
  id : Nat
  username : String
  activated : Bool
  salt : String
  hash : String
  deriving Repr, DecidableEq

/-- A document of the `PasswordReset` collection. -/
structure ResetEntry where
  reset_key : String
  user_id : Nat
  date : ℚ
  used : Bool
  deriving Repr, DecidableEq

/-- A document of the `Feedback` collection (only the `date` field is
queried by `getUnreadFeedbackCount`). -/
structure FeedbackRec where
  user_id : Nat
  date : ℚ
  deriving Repr, DecidableEq

/-- The configuration values of `config/config.js` that `user.js` reads.
Error-message constants are modelled by the `AuthErr` inductive below. -/
structure Config where
  AUTH_USE_LDAP : Bool
  RESET_VALIDITY : ℚ
  deriving Repr, DecidableEq

/-- The `config.ERR_*` message constants that `authenticate` wraps in
`new Error(...)` and hands to its callback. -/
inductive AuthErr where
  | ERR_AUTH_LDAP_SERVER_DOWN
  | ERR_AUTH_FAILED
  | ERR_AUTH_LDAP_ERROR
  | ERR_AUTH_INVALID_USERNAME
  | ERR_AUTH_ACTIVATION_PENDING
  | ERR_AUTH_INVALID_PASSWORD
  deriving Repr, DecidableEq

/-- The observable outcome of one call to a callback-style function:
either the callback was invoked with `(err, value)`, or the function threw
(`throw err` reaches the top, the callback is never invoked). -/
inductive CbOutcome (ε : Type) (α : Type) where
  | callback (err : Option ε) (val : Option α)
  | thrown (e : ε)
  deriving Repr, DecidableEq

/-- Whether an outcome is a thrown exception rather than a callback. -/
def CbOutcome.isThrown {ε α : Type} : CbOutcome ε α → Bool
  | .thrown _ => true
  | _ => false

/-- Update the first element of a list satisfying `p` by `f` (the effect
of a MongoDB update with `multi: false`, and of `findOneAndUpdate`). -/
def updateFirst {α : Type} (p : α → Bool) (f : α → α) : List α → List α
  | [] => []
  | x :: xs => if p x then f x :: xs else x :: updateFirst p f xs

/-- `validateResetKey`'s callback body (`user.js` lines 259-273): the
function of the `findOne` outcome `(err, reset_entry)`. The error argument
is ignored by the source, exactly as here. -/
def validateResetKeyCore (cfg : Config) (now : ℚ) (_err : Option String)
    (reset_entry : Option ResetEntry) : Option String × String :=
  match reset_entry with
  | some e =>
      if e.used then (none, "used")
      else if |now - e.date| / 3600000 ≤ cfg.RESET_VALIDITY then (none, "success")
      else (none, "failure")
  | none => (none, "invalid_key")

/-- `validateResetKey` (`user.js` lines 256-274) run against a list-model
database: `findOne {reset_key}` is the first entry with that key. -/
def validateResetKey (cfg : Config) (now : ℚ) (resets : List ResetEntry)
    (reset_key : String) : Option String × String :=
  validateResetKeyCore cfg now none
    (resets.find? (fun e => e.reset_key == reset_key))

/-- `getUnreadFeedbackCount`'s callback body (`user.js` lines 438-441):
`unread_count = unread_count || 0; fn(null, unread_count)`. The database
error is ignored; a missing count (as on error) is `none`. -/
def getUnreadFeedbackCountCore (_err : Option String)
    (unread_count : Option Nat) : Option String × Nat :=
  (none, unread_count.getD 0)

/-- `getUnreadFeedbackCount` (`user.js` lines 432-442) against a
list-model database: `Feedback.count {date: {$gte: last_seen}}`. -/
def getUnreadFeedbackCount (feedbacks : List FeedbackRec) (last_seen : ℚ) :
    Option String × Nat :=
  getUnreadFeedbackCountCore none
    (some (feedbacks.countP (fun f => last_seen ≤ f.date)))

/-- JavaScript's `String.prototype.toLowerCase()`, modelled
character-by-character. -/
def jsToLower (s : String) : String := ⟨s.data.map Char.toLower⟩

/-- `isUsernameValid` (`user.js` lines 141-157): `findOne` by the
lowercased username; `(null, true)` when a document is returned,
`(null, false)` otherwise. (The `if (err)` branch inside the
document-found case is unreachable in the list model, where a returned
document never comes with an error.) -/
def isUsernameValid (users : List UserRec) (name : String) :
    Option AuthErr × Option Bool :=
  match users.find? (fun u => u.username == jsToLower name) with
  | some _ => (none, some true)
  | none => (none, some false)

/-- `userExist` (`user.js` lines 170-181) as a function of the `count`
outcome: the signup request proceeds (`next()`) exactly when
`count === 0`; otherwise the request is redirected to the signup page. A
database error leaves `count` undefined (`none`), and `undefined === 0`
is false. -/
def userExistCore (count : Option Nat) : Bool :=
  count == some 0

/-- `userExist` against a list-model database:
`User.count {username: req.body.username.toLowerCase()}`. Returns `true`
when the middleware calls `next()`, `false` when it redirects with
`ERR_SIGNUP_ALREADY_EXISTS`. -/
def userExist (users : List UserRec) (username : String) : Bool :=
  userExistCore (some (users.countP (fun u => u.username == jsToLower username)))

/-- The `new models.User({username: username})` document created by
`findOrCreateLDAPUser`: the username is stored *as given* (not
lowercased). Modelled from the spec for the schema defaults: the `User`
schema lives in `models/models.js`, which is not among the sources; only
the `username` field matters to the claims. -/
def mkLdapUser (id : Nat) (username : String) : UserRec :=
  { id := id, username := username, activated := true, salt := "", hash := "" }

/-- `findOrCreateLDAPUser` (`user.js` lines 193-210): check
`isUsernameValid` (a lowercased-username lookup); if valid, `findOne` by
the lowercased username and return that document; otherwise save a new
document whose `username` is the string as given. Returns the callback
value together with the resulting database. -/
def findOrCreateLDAPUser (users : List UserRec) (nextId : Nat)
    (username : String) : Option UserRec × List UserRec :=
  match isUsernameValid users username with
  | (some _, _) => (none, users)
  | (none, valid) =>
      if valid == some true then
        (users.find? (fun u => u.username == jsToLower username), users)
      else
        (some (mkLdapUser nextId username), users ++ [mkLdapUser nextId username])

/-- Outcome of the external `ldap.authenticate` bind consumed by
`authenticate`: an error with its `err.name`, or success. (On success the
source ignores the LDAP user object and builds its own via
`findOrCreateLDAPUser`.) -/
inductive LdapOutcome where
  | err (name : String)
  | ok
  deriving Repr, DecidableEq

/-- What one run of `authenticate` did: the callback invocation, whether
an LDAP bind was issued, whether the local hash comparison
(`hash == user.hash`) was performed, and the database afterwards
(the LDAP path may create a user). -/
structure AuthTrace where
  result : Except AuthErr (Option UserRec)
  ldapConsulted : Bool
  hashCompared : Bool
  db : List UserRec
  deriving Repr

/-- `authenticate` (`user.js` lines 29-86). `hashFn pass salt` is the
(pure) outcome of `crypt.hash(pass, user.salt, ...)`; `ldap` is the
outcome of the LDAP bind, consulted only on the LDAP branch. In the LDAP
branch the error classification is by string comparison on `err.name`;
in the local branch the source checks the document first
(`if (user) { if (err) ... }`), so in the list model (document without
error) the `if (err)` and `crypt.hash` error branches are unreachable. -/
def authenticate (cfg : Config) (hashFn : String → String → String)
    (ldap : LdapOutcome) (users : List UserRec) (nextId : Nat)
    (name pass : String) : AuthTrace :=
  if cfg.AUTH_USE_LDAP then
    match ldap with
    | .err ename =>
        if ename == "ConnectionError" then
          ⟨.error .ERR_AUTH_LDAP_SERVER_DOWN, true, false, users⟩
        else if ename == "InvalidCredentialsError" then
          ⟨.error .ERR_AUTH_FAILED, true, false, users⟩
        else
          ⟨.error .ERR_AUTH_LDAP_ERROR, true, false, users⟩
    | .ok =>
        let r := findOrCreateLDAPUser users nextId name
        ⟨.ok r.1, true, false, r.2⟩
  else
    match users.find? (fun u => u.username == jsToLower name) with
    | some user =>
        if !user.activated then
          ⟨.error .ERR_AUTH_ACTIVATION_PENDING, false, false, users⟩
        else if hashFn pass user.salt == user.hash then
          ⟨.ok (some user), false, true, users⟩
        else
          ⟨.error .ERR_AUTH_INVALID_PASSWORD, false, true, users⟩
    | none => ⟨.error .ERR_AUTH_INVALID_USERNAME, false, false, users⟩

/-- `activateUser` (`user.js` lines 221-246). `updateErr` is the error
the `User.update` callback receives, if any: on an error the source does
`throw err`, otherwise it invokes `fn(null, count)`. When no document
matches `_id`, the callback receives `ERR_ACTIVATION_INVALID_KEY`. The
update matches `{_id: id, activated: false}` with `multi: false`.
Returns the outcome and the database afterwards. -/
def activateUser (users : List UserRec) (id : Nat)
    (updateErr : Option String) : CbOutcome String Nat × List UserRec :=
  match users.find? (fun u => u.id == id) with
  | some _ =>
      match updateErr with
      | some e => (.thrown e, users)
      | none =>
          let p : UserRec → Bool := fun u => u.id == id && u.activated == false
          let count := if users.any p then 1 else 0
          (.callback none (some count),
            updateFirst p (fun u => { u with activated := true }) users)
  | none => (.callback (some "ERR_ACTIVATION_INVALID_KEY") none, users)

/-- `resetPassword` (`user.js` lines 322-362). The outcomes of the
external calls are arguments: `uid` is the `user_id` the
`decryptResetKey` callback receives (its error is ignored by the source,
as here; `none` models an undefined id, whose `{_id: user_id}` query
matches nothing); `hashRes` is the `(salt, hash)` outcome of
`crypt.hash(new_password, ...)` — on an error the source does
`throw err`; `updateErr` and `findUpdErr` are errors of `User.update`
and `PasswordReset.findOneAndUpdate`, each thrown by the source. On the
success path the user document's `salt`/`hash` are updated
(`multi: false`), the first `PasswordReset` entry with the key gets
`used: true`, and the callback receives `(null, true)`. -/
def resetPassword (users : List UserRec) (resets : List ResetEntry)
    (uid : Option Nat) (hashRes : Except String (String × String))
    (updateErr findUpdErr : Option String) (reset_key : String) :
    CbOutcome String Bool × List UserRec × List ResetEntry :=
  match hashRes with
  | .error e => (.thrown e, users, resets)
  | .ok (salt, hash) =>
      match updateErr with
      | some e => (.thrown e, users, resets)
      | none =>
          let users2 := match uid with
            | some u => updateFirst (fun r => r.id == u)
                (fun r => { r with salt := salt, hash := hash }) users
            | none => users
          match findUpdErr with
          | some e => (.thrown e, users2, resets)
          | none =>
              (.callback none (some true), users2,
                updateFirst (fun e => e.reset_key == reset_key)
                  (fun e => { e with used := true }) resets)

/-! ## Theorems settling the claims -/

/-- `find?` after `updateFirst` with the same predicate: when the update
preserves the predicate, the first match afterwards is the updated
document. -/
theorem find?_updateFirst {α : Type} (p : α → Bool) (f : α → α)
    (hf : ∀ a, p a = true → p (f a) = true) (l : List α) :
    (updateFirst p f l).find? p = (l.find? p).map f := by
  induction l with
  | nil => rfl
  | cons x xs ih =>
      by_cases hx : p x
      · simp [updateFirst, hx, List.find?_cons_of_pos, hf x hx]
      · simp [updateFirst, hx, List.find?_cons_of_neg, ih]

/-- C3: Reset-key expiry arithmetic. For every reset key,
`validateResetKey` returns `'invalid_key'` when no entry with that key
exists; otherwise, for an unused entry, it returns `'success'` exactly
when the absolute difference between the current time and the entry's
date, divided by 36e5 (hours), is at most `config.RESET_VALIDITY`, and
`'failure'` otherwise. -/
theorem validateResetKey_expiry (cfg : Config) (now : ℚ)
    (resets : List ResetEntry) (key : String) :
    (resets.find? (fun e => e.reset_key == key) = none →
      (validateResetKey cfg now resets key).2 = "invalid_key")
    ∧ (∀ e, resets.find? (fun x => x.reset_key == key) = some e →
        e.used = false →
        ((validateResetKey cfg now resets key).2 = "success" ↔
            |now - e.date| / 3600000 ≤ cfg.RESET_VALIDITY)
        ∧ ((validateResetKey cfg now resets key).2 = "failure" ↔
            ¬ |now - e.date| / 3600000 ≤ cfg.RESET_VALIDITY)) := by
  constructor
  · intro h
    simp [validateResetKey, h, validateResetKeyCore]
  · intro e he hu
    constructor
    · constructor
      · intro hs
        by_contra hle
        simp [validateResetKey, he, validateResetKeyCore, hu, hle] at hs
      · intro hle
        simp [validateResetKey, he, validateResetKeyCore, hu, hle]
    · constructor
      · intro hs
        intro hle
        simp [validateResetKey, he, validateResetKeyCore, hu, hle] at hs
      · intro hle
        simp [validateResetKey, he, validateResetKeyCore, hu, hle]

/-- Witness for C3: a fresh, unused ticket validates to `'success'`. -/
theorem validateResetKey_expiry_witness :
    (validateResetKey ⟨false, 24⟩ 0 [⟨"k", 1, 0, false⟩] "k").2 = "success" := by
  have h := (validateResetKey_expiry ⟨false, 24⟩ 0 [⟨"k", 1, 0, false⟩] "k").2
    ⟨"k", 1, 0, false⟩ (by decide) rfl
  exact h.1.mpr (by norm_num)

/-- C8: `validateResetKey` always invokes its callback with a null error
and one of exactly the four status strings, for every reset key and
every database outcome; the lookup error is ignored, and when no entry
is returned the status is `'invalid_key'`. -/
theorem validateResetKey_total (cfg : Config) (now : ℚ)
    (err : Option String) (entry : Option ResetEntry) :
    (validateResetKeyCore cfg now err entry).1 = none
    ∧ ((validateResetKeyCore cfg now err entry).2 = "used"
        ∨ (validateResetKeyCore cfg now err entry).2 = "success"
        ∨ (validateResetKeyCore cfg now err entry).2 = "failure"
        ∨ (validateResetKeyCore cfg now err entry).2 = "invalid_key")
    ∧ validateResetKeyCore cfg now err entry
        = validateResetKeyCore cfg now none entry
    ∧ (entry = none →
        (validateResetKeyCore cfg now err entry).2 = "invalid_key") := by
  refine ⟨?_, ?_, rfl, ?_⟩
  · cases entry with
    | none => rfl
    | some e =>
        simp only [validateResetKeyCore]
        split <;> [rfl; skip]
        split <;> rfl
  · cases entry with
    | none => simp [validateResetKeyCore]
    | some e =>
        simp only [validateResetKeyCore]
        split
        · simp
        · split <;> simp
  · intro h
    subst h
    rfl

/-- Witness for C8: a lookup error together with a missing entry still
yields the callback `(null, 'invalid_key')`. -/
theorem validateResetKey_total_witness :
    (validateResetKeyCore ⟨false, 24⟩ 0 (some "db down") none).1 = none
    ∧ (validateResetKeyCore ⟨false, 24⟩ 0 (some "db down") none).2
        = "invalid_key" :=
  ⟨(validateResetKey_total ⟨false, 24⟩ 0 (some "db down") none).1,
   (validateResetKey_total ⟨false, 24⟩ 0 (some "db down") none).2.2.2 rfl⟩

/-- C10: `getUnreadFeedbackCount` always invokes its callback with a null
error and a (nonnegative, by the type `Nat`) count: against the database
it reports the number of `Feedback` documents with `date ≥ last_seen`,
and a database error (`count` missing) yields `0` instead of forwarding
the error. -/
theorem getUnreadFeedbackCount_total (err : Option String)
    (count : Option Nat) (feedbacks : List FeedbackRec) (last_seen : ℚ) :
    (getUnreadFeedbackCountCore err count).1 = none
    ∧ (getUnreadFeedbackCountCore err count).2 = count.getD 0
    ∧ getUnreadFeedbackCountCore err none = (none, 0)
    ∧ getUnreadFeedbackCount feedbacks last_seen
        = (none, feedbacks.countP (fun f => last_seen ≤ f.date)) :=
  ⟨rfl, rfl, rfl, rfl⟩

/-- C4: Local-store identity verification is a hashing comparison. With
`AUTH_USE_LDAP` false, `authenticate` yields the stored user record
exactly when a record with the lowercased username exists, its
`activated` flag is true, and the hash of the supplied password with the
record's salt equals the record's stored hash; otherwise it yields
invalid-username, activation-pending, or invalid-password respectively. -/
theorem authenticate_local (cfg : Config) (hashFn : String → String → String)
    (ldap : LdapOutcome) (users : List UserRec) (nextId : Nat)
    (name pass : String) (hcfg : cfg.AUTH_USE_LDAP = false) :
    (∀ u, (authenticate cfg hashFn ldap users nextId name pass).result
          = .ok (some u) ↔
        (users.find? (fun v => v.username == jsToLower name) = some u
         ∧ u.activated = true ∧ hashFn pass u.salt = u.hash))
    ∧ (users.find? (fun v => v.username == jsToLower name) = none →
        (authenticate cfg hashFn ldap users nextId name pass).result
          = .error .ERR_AUTH_INVALID_USERNAME)
    ∧ (∀ u, users.find? (fun v => v.username == jsToLower name) = some u →
        u.activated = false →
        (authenticate cfg hashFn ldap users nextId name pass).result
          = .error .ERR_AUTH_ACTIVATION_PENDING)
    ∧ (∀ u, users.find? (fun v => v.username == jsToLower name) = some u →
        u.activated = true → hashFn pass u.salt ≠ u.hash →
        (authenticate cfg hashFn ldap users nextId name pass).result
          = .error .ERR_AUTH_INVALID_PASSWORD) := by
  refine ⟨?_, ?_, ?_, ?_⟩
  · intro u
    constructor
    · intro hres
      cases hfind : users.find? (fun v => v.username == jsToLower name) with
      | none => simp [authenticate, hcfg, hfind] at hres
      | some v =>
          by_cases hact : v.activated = true
          · by_cases hh : hashFn pass v.salt == v.hash
            · simp [authenticate, hcfg, hfind, hact, hh] at hres
              subst hres
              exact ⟨rfl, hact, by simpa using hh⟩
            · simp [authenticate, hcfg, hfind, hact, hh] at hres
          · simp [authenticate, hcfg, hfind,
              Bool.eq_false_iff.mpr hact] at hres
    · rintro ⟨hfind, hact, hh⟩
      simp [authenticate, hcfg, hfind, hact, hh]
  · intro hfind
    simp [authenticate, hcfg, hfind]
  · intro u hfind hact
    simp [authenticate, hcfg, hfind, hact]
  · intro u hfind hact hh
    simp [authenticate, hcfg, hfind, hact, hh]

/-- Witness for C4: an activated user with a matching hash is returned. -/
theorem authenticate_local_witness :
    (authenticate ⟨false, 24⟩ (fun _ _ => "h") .ok
      [⟨1, "bob", true, "s", "h"⟩] 0 "BOB" "pw").result
      = .ok (some ⟨1, "bob", true, "s", "h"⟩) :=
  ((authenticate_local ⟨false, 24⟩ (fun _ _ => "h") .ok
      [⟨1, "bob", true, "s", "h"⟩] 0 "BOB" "pw" rfl).1
    ⟨1, "bob", true, "s", "h"⟩).mpr ⟨by decide, rfl, rfl⟩

/-- C5: `authenticate` dispatches on configuration: with `AUTH_USE_LDAP`
true the LDAP directory is consulted and the local hash comparison is
never performed; with it false no LDAP request is made. -/
theorem authenticate_dispatch (cfg : Config)
    (hashFn : String → String → String) (ldap : LdapOutcome)
    (users : List UserRec) (nextId : Nat) (name pass : String) :
    (authenticate cfg hashFn ldap users nextId name pass).ldapConsulted
      = cfg.AUTH_USE_LDAP
    ∧ (cfg.AUTH_USE_LDAP = true →
        (authenticate cfg hashFn ldap users nextId name pass).hashCompared
          = false) := by
  constructor
  · cases hcfg : cfg.AUTH_USE_LDAP with
    | true =>
        cases ldap with
        | err ename =>
            by_cases h1 : ename == "ConnectionError" <;>
              by_cases h2 : ename == "InvalidCredentialsError" <;>
                simp [authenticate, hcfg, h1, h2]
        | ok => simp [authenticate, hcfg]
    | false =>
        cases hfind : users.find? (fun u => u.username == jsToLower name) with
        | none => simp [authenticate, hcfg, hfind]
        | some u =>
            by_cases hact : u.activated <;>
              by_cases hh : hashFn pass u.salt == u.hash <;>
                simp [authenticate, hcfg, hfind, hact, hh]
  · intro hcfg
    cases ldap with
    | err ename =>
        by_cases h1 : ename == "ConnectionError" <;>
          by_cases h2 : ename == "InvalidCredentialsError" <;>
            simp [authenticate, hcfg, h1, h2]
    | ok => simp [authenticate, hcfg]

/-- Witness for C5: with LDAP enabled, the bind happens and no local hash
comparison is performed. -/
theorem authenticate_dispatch_witness :
    (authenticate ⟨true, 24⟩ (fun _ _ => "h") .ok [] 0 "bob" "pw").ldapConsulted
      = true
    ∧ (authenticate ⟨true, 24⟩ (fun _ _ => "h") .ok [] 0 "bob" "pw").hashCompared
      = false :=
  ⟨(authenticate_dispatch ⟨true, 24⟩ (fun _ _ => "h") .ok [] 0 "bob" "pw").1,
   (authenticate_dispatch ⟨true, 24⟩ (fun _ _ => "h") .ok [] 0 "bob" "pw").2 rfl⟩

/-- C6: LDAP error classification is by string comparison on `err.name`:
`ConnectionError` maps to `ERR_AUTH_LDAP_SERVER_DOWN`,
`InvalidCredentialsError` to `ERR_AUTH_FAILED`, any other error name to
`ERR_AUTH_LDAP_ERROR`; with no error the user from
`findOrCreateLDAPUser` is yielded. -/
theorem authenticate_ldap_classify (cfg : Config)
    (hashFn : String → String → String) (users : List UserRec)
    (nextId : Nat) (name pass : String)
    (hcfg : cfg.AUTH_USE_LDAP = true) :
    ((authenticate cfg hashFn (.err "ConnectionError") users nextId
        name pass).result = .error .ERR_AUTH_LDAP_SERVER_DOWN)
    ∧ ((authenticate cfg hashFn (.err "InvalidCredentialsError") users
        nextId name pass).result = .error .ERR_AUTH_FAILED)
    ∧ (∀ ename, ename ≠ "ConnectionError" →
        ename ≠ "InvalidCredentialsError" →
        (authenticate cfg hashFn (.err ename) users nextId
          name pass).result = .error .ERR_AUTH_LDAP_ERROR)
    ∧ ((authenticate cfg hashFn .ok users nextId name pass).result
        = .ok (findOrCreateLDAPUser users nextId name).1
       ∧ (authenticate cfg hashFn .ok users nextId name pass).db
        = (findOrCreateLDAPUser users nextId name).2) := by
  refine ⟨by simp [authenticate, hcfg], by simp [authenticate, hcfg],
    ?_, by simp [authenticate, hcfg], by simp [authenticate, hcfg]⟩
  intro ename h1 h2
  simp [authenticate, hcfg, h1, h2]

/-- Witness for C6: a `ConnectionError` is reported as the LDAP server
being down. -/
theorem authenticate_ldap_classify_witness :
    (authenticate ⟨true, 24⟩ (fun _ _ => "h") (.err "ConnectionError")
      [] 0 "bob" "pw").result = .error .ERR_AUTH_LDAP_SERVER_DOWN :=
  (authenticate_ldap_classify ⟨true, 24⟩ (fun _ _ => "h") [] 0
    "bob" "pw" rfl).1

/-- C2: A password-reset ticket is single-use: an entry with
`used = true` validates to `'used'` and never `'success'`; and
`resetPassword`, after updating the user's password, sets `used = true`
on the matching ticket, so a subsequent `validateResetKey` on the same
key cannot return `'success'`. -/
theorem resetTicket_single_use (cfg : Config) (now : ℚ)
    (resets : List ResetEntry) (key : String) :
    (∀ e, resets.find? (fun x => x.reset_key == key) = some e →
        e.used = true →
        (validateResetKey cfg now resets key).2 = "used"
        ∧ (validateResetKey cfg now resets key).2 ≠ "success")
    ∧ (∀ users uid hashRes uerr ferr out users2 resets2,
        resetPassword users resets uid hashRes uerr ferr key
          = (out, users2, resets2) →
        out = .callback none (some true) →
        (resets2.find? (fun x => x.reset_key == key)
            = (resets.find? (fun x => x.reset_key == key)).map
                (fun e => { e with used := true })
         ∧ (validateResetKey cfg now resets2 key).2 ≠ "success")) := by
  constructor
  · intro e he hu
    refine ⟨by simp [validateResetKey, he, validateResetKeyCore, hu], ?_⟩
    simp [validateResetKey, he, validateResetKeyCore, hu]
  · intro users uid hashRes uerr ferr out users2 resets2 h hout
    subst hout
    have hres2 : resets2 = updateFirst (fun e => e.reset_key == key)
        (fun e => { e with used := true }) resets := by
      cases hashRes with
      | error e => simp [resetPassword] at h
      | ok sh =>
          obtain ⟨s, hsalt⟩ := sh
          cases uerr with
          | some e => simp [resetPassword] at h
          | none =>
              cases ferr with
              | some e => simp [resetPassword] at h
              | none =>
                  have h22 := congrArg (fun t => t.2.2) h
                  simpa [resetPassword] using h22.symm
    have hfind : resets2.find? (fun x => x.reset_key == key)
        = (resets.find? (fun x => x.reset_key == key)).map
            (fun e => { e with used := true }) := by
      rw [hres2]
      exact find?_updateFirst _ _ (fun a ha => by simpa using ha) resets
    refine ⟨hfind, ?_⟩
    cases hf : resets.find? (fun x => x.reset_key == key) with
    | none =>
        rw [hf] at hfind
        simp [validateResetKey, hfind, validateResetKeyCore]
    | some e =>
        rw [hf] at hfind
        simp [validateResetKey, hfind, validateResetKeyCore]

/-- Witness for C2: a used ticket validates to `'used'`, and after a
successful `resetPassword` the ticket no longer validates to
`'success'`. -/
theorem resetTicket_single_use_witness :
    (validateResetKey ⟨false, 24⟩ 5 [⟨"k", 1, 0, true⟩] "k").2 = "used"
    ∧ (validateResetKey ⟨false, 24⟩ 5 [⟨"k", 1, 0, true⟩] "k").2
        ≠ "success" :=
  (resetTicket_single_use ⟨false, 24⟩ 5 [⟨"k", 1, 0, true⟩] "k").1
    ⟨"k", 1, 0, true⟩ (by decide) rfl

/-- C9: `findOrCreateLDAPUser` is idempotent only for usernames equal to
their lowercase form: for such a username a second call returns the
first match and creates nothing, while for the username `"Alice"`
(which differs from its lowercase form) each call creates a new
record. -/
theorem findOrCreateLDAPUser_idem (users : List UserRec) (n n2 : Nat)
    (s : String) (hs : jsToLower s = s) :
    ((findOrCreateLDAPUser (findOrCreateLDAPUser users n s).2 n2 s).2
        = (findOrCreateLDAPUser users n s).2
     ∧ (findOrCreateLDAPUser (findOrCreateLDAPUser users n s).2 n2 s).1
        = (findOrCreateLDAPUser users n s).2.find?
            (fun u => u.username == s)
     ∧ ((findOrCreateLDAPUser users n s).2.find?
            (fun u => u.username == s)).isSome = true)
    ∧ ("Alice" ≠ jsToLower "Alice"
       ∧ (findOrCreateLDAPUser [] 1 "Alice").2.length = 1
       ∧ (findOrCreateLDAPUser (findOrCreateLDAPUser [] 1 "Alice").2
            2 "Alice").2.length = 2) := by
  constructor
  · cases hfind : users.find? (fun u => u.username == s) with
    | some u =>
        have h1 : findOrCreateLDAPUser users n s = (some u, users) := by
          simp [findOrCreateLDAPUser, isUsernameValid, hs, hfind]
        rw [h1]
        refine ⟨?_, ?_, ?_⟩ <;>
          simp [findOrCreateLDAPUser, isUsernameValid, hs, hfind]
    | none =>
        have h1 : findOrCreateLDAPUser users n s
            = (some (mkLdapUser n s), users ++ [mkLdapUser n s]) := by
          simp [findOrCreateLDAPUser, isUsernameValid, hs, hfind]
        have h2 : (users ++ [mkLdapUser n s]).find?
            (fun u => u.username == s) = some (mkLdapUser n s) := by
          simp [List.find?_append, hfind, mkLdapUser]
        rw [h1]
        refine ⟨?_, ?_, ?_⟩ <;>
          simp [findOrCreateLDAPUser, isUsernameValid, hs, h2]
  · exact ⟨by decide, by decide, by decide⟩

/-- Witness for C9: for the all-lowercase username `"alice"`, the second
call leaves the database unchanged. -/
theorem findOrCreateLDAPUser_idem_witness :
    (findOrCreateLDAPUser (findOrCreateLDAPUser [] 1 "alice").2 2 "alice").2
      = (findOrCreateLDAPUser [] 1 "alice").2 :=
  ((findOrCreateLDAPUser_idem [] 1 2 "alice" (by decide)).1).1

/-- Counterexample to C7 as stated: with a record named `"Alice"` already
in the database, `findOrCreateLDAPUser "Alice"` inserts a second record
with the very same username, so the module does insert a user record
whose username already exists. -/
theorem username_uniqueness_cex :
    (findOrCreateLDAPUser [mkLdapUser 1 "Alice"] 2 "Alice").2
      = [mkLdapUser 1 "Alice"] ++ [mkLdapUser 2 "Alice"]
    ∧ (∃ u ∈ [mkLdapUser 1 "Alice"],
        u.username = (mkLdapUser 2 "Alice").username) := by
  decide

/-- C7 (amended): `userExist` lets a signup proceed exactly when the
count of records with the lowercased requested username is zero, and
`findOrCreateLDAPUser` creates a new record exactly when no record with
the *lowercased* username exists (the created record keeping the
username as given, so usernames differing from their lowercase form are
not protected against duplicates). -/
theorem username_uniqueness (users : List UserRec) (name : String)
    (n : Nat) (s : String) :
    (userExist users name = true ↔
        users.countP (fun u => u.username == jsToLower name) = 0)
    ∧ ((users.find? (fun u => u.username == jsToLower s)).isSome = true →
        (findOrCreateLDAPUser users n s).2 = users)
    ∧ (users.find? (fun u => u.username == jsToLower s) = none →
        (findOrCreateLDAPUser users n s).2
          = users ++ [mkLdapUser n s]) := by
  refine ⟨?_, ?_, ?_⟩
  · simp [userExist, userExistCore]
  · intro h
    obtain ⟨u, hu⟩ := Option.isSome_iff_exists.mp h
    simp [findOrCreateLDAPUser, isUsernameValid, hu]
  · intro h
    simp [findOrCreateLDAPUser, isUsernameValid, h]

/-- Witness for C7 (amended): a lookup hit means no record is created. -/
theorem username_uniqueness_witness :
    (findOrCreateLDAPUser [mkLdapUser 1 "alice"] 2 "alice").2
      = [mkLdapUser 1 "alice"] :=
  (username_uniqueness [mkLdapUser 1 "alice"] "x" 2 "alice").2.1 (by decide)

/-- Counterexample to C1 as stated: `activateUser` signals a database
update error by throwing it, so the error never reaches the callback. -/
theorem errors_via_callback_cex :
    ((activateUser [⟨1, "bob", false, "s", "h"⟩] 1
        (some "db failure")).1).isThrown = true := by
  decide

/-- C1 (amended): errors are forwarded through the callback, except that
`activateUser` throws the error of its `User.update` call and
`resetPassword` throws the errors of its `crypt.hash`, `User.update`
and `PasswordReset.findOneAndUpdate` calls (ignoring `decryptResetKey`
errors); those are exactly the throwing cases. -/
theorem errors_thrown_exactly (users : List UserRec)
    (resets : List ResetEntry) (id : Nat) (uerr : Option String)
    (uid : Option Nat) (hashRes : Except String (String × String))
    (uerr2 ferr : Option String) (key : String) :
    (((activateUser users id uerr).1).isThrown = true ↔
        ((users.find? (fun u => u.id == id)).isSome = true ∧ uerr ≠ none))
    ∧ (((resetPassword users resets uid hashRes uerr2 ferr key).1).isThrown
          = true ↔
        (hashRes.isOk = false ∨ uerr2 ≠ none ∨ ferr ≠ none)) := by
  constructor
  · cases hfind : users.find? (fun u => u.id == id) with
    | none => simp [activateUser, hfind, CbOutcome.isThrown]
    | some u =>
        cases uerr with
        | none => simp [activateUser, hfind, CbOutcome.isThrown]
        | some e => simp [activateUser, hfind, CbOutcome.isThrown]
  · cases hashRes with
    | error e => simp [resetPassword, CbOutcome.isThrown, Except.isOk, Except.toBool]
    | ok sh =>
        obtain ⟨s, h⟩ := sh
        cases uerr2 with
        | some e => simp [resetPassword, CbOutcome.isThrown, Except.isOk, Except.toBool]
        | none =>
            cases ferr with
            | some e => simp [resetPassword, CbOutcome.isThrown, Except.isOk, Except.toBool]
            | none => simp [resetPassword, CbOutcome.isThrown, Except.isOk, Except.toBool]

end NodeQuiz
